import Mathlib

/-
  Verification development for the LINE/Gemini webhook agent (src/main.py).

  The router `handle_message` (src/main.py lines 45-118) is shallowly embedded
  below.  Message texts are modelled as `List Char` (Python strings are
  sequences of code points); the Python string operations used by the handler
  (`str.strip`, `str.startswith`, `str.replace(old, new)`,
  `str.replace(old, new, 1)`, `in`) are modelled by `strip`, `List.isPrefixOf`,
  `replaceAll`, `replaceFirst` and `containsSub`.  The external collaborators
  (Gemini image/text APIs, the file system, the LINE reply API) are oracles in
  an `Env`; the handler returns the list of observable effects it performed
  together with a flag recording whether an exception escaped the handler.
-/

namespace LineGemini

/-- Whitespace predicate modelling the characters `str.strip()` removes for the
texts considered here (space, tab, newline, carriage return). -/
def isWS (c : Char) : Bool := c == ' ' || c == '\t' || c == '\n' || c == '\r'

/-- Model of Python `s.strip()`: drop whitespace from both ends. -/
def strip (s : List Char) : List Char :=
  ((s.dropWhile isWS).reverse.dropWhile isWS).reverse

/-- Model of Python `s.replace(pat, "", 1)`: remove the first (leftmost)
occurrence of `pat`, if any. -/
def replaceFirst (pat : List Char) : List Char → List Char
  | [] => []
  | c :: rest =>
    if pat.isPrefixOf (c :: rest) then rest.drop (pat.length - 1)
    else c :: replaceFirst pat rest

/-- Scanner for `replaceAll`: while `skip > 0` the current character belongs to
an already-matched occurrence and is discarded; at `skip = 0` the scanner
either starts discarding a fresh occurrence of `pat` or keeps the character. -/
def replaceAllGo (pat : List Char) : Nat → List Char → List Char
  | _, [] => []
  | 0, c :: rest =>
    if pat.isPrefixOf (c :: rest) then replaceAllGo pat (pat.length - 1) rest
    else c :: replaceAllGo pat 0 rest
  | k + 1, _ :: rest => replaceAllGo pat k rest

/-- Model of Python `s.replace(pat, "")`: remove every occurrence of `pat`,
scanning left to right, non-overlapping. -/
def replaceAll (pat s : List Char) : List Char := replaceAllGo pat 0 s

/-- Model of Python `pat in s`: substring containment. -/
def containsSub (pat : List Char) : List Char → Bool
  | [] => pat.isEmpty
  | c :: rest => pat.isPrefixOf (c :: rest) || containsSub pat rest

/-- The image-command literal `/畫圖` (src/main.py line 50). -/
def imgCmd : List Char := "/畫圖".data

/-- The assistant trigger word `助手` (src/main.py line 94). -/
def trigger_word : List Char := "助手".data

/-- Fallback text of the image branch (src/main.py line 89). -/
def imgFailMsg : List Char := "畫圖失敗了... 原因可能是涉及敏感內容或模型太忙碌。".data

/-- Fallback text of the keyword branch (src/main.py line 117). -/
def brainFailMsg : List Char := "大腦暫時短路了，請稍後再試。".data

/-- The URL path segment for the static directory (src/main.py line 75). -/
def staticSeg : List Char := "static/".data

/-- The generated-image filename extension (src/main.py line 67). -/
def pngExt : List Char := ".png".data

/-- A decoded inbound text event (reply token, message text, host URL). -/
structure InboundEvent where
  replyToken : List Char
  text : List Char
  hostUrl : List Char

/-- Outcome of `image_model.generate_content(prompt)` plus the payload check of
src/main.py lines 60-63: `ok` means parts with inline data were returned,
`noPayload` means the response had no parts or no inline data, `raises` means
the call itself raised. -/
inductive ImageResult where
  | ok (data : List Nat)
  | noPayload
  | raises
deriving DecidableEq

/-- Outcome of `model.generate_content(prompt)` / `response.text`
(src/main.py lines 105-106): generated text, or an exception. -/
inductive TextResult where
  | ok (t : List Char)
  | raises
deriving DecidableEq

/-- A reply payload handed to `line_bot_api.reply_message`: `TextSendMessage`
or `ImageSendMessage(original_content_url, preview_image_url)`. -/
inductive Reply where
  | text (content : List Char)
  | image (originalUrl : List Char) (previewUrl : List Char)
deriving DecidableEq

/-- Console log entries printed by the handler (src/main.py lines 76, 86, 114). -/
inductive LogEntry where
  | generatedUrl (url : List Char)
  | imageError
  | textError
deriving DecidableEq

/-- Observable effects of one handler run, in program order per list. -/
structure Effects where
  imageCalls : List (List Char)
  textCalls : List (List Char)
  fileWrites : List (List Char × List Nat)
  replies : List Reply
  logs : List LogEntry
deriving DecidableEq

def emptyEffects : Effects := ⟨[], [], [], [], []⟩

def Effects.merge (a b : Effects) : Effects :=
  ⟨a.imageCalls ++ b.imageCalls, a.textCalls ++ b.textCalls,
   a.fileWrites ++ b.fileWrites, a.replies ++ b.replies, a.logs ++ b.logs⟩

/-- Control flow leaving a branch: fall through to the code after it, `return`
from the whole handler, or an exception escaping the handler. -/
inductive Flow where
  | next
  | stop
  | exc
deriving DecidableEq

/-- The external world: the two generation APIs, the fresh UUID hex string
drawn for the filename, whether the file write succeeds, and whether the n-th
`reply_message` call of this run succeeds. -/
structure Env where
  imageApi : List Char → ImageResult
  textApi : List Char → TextResult
  freshName : List Char
  writeOk : Bool
  deliverOk : Nat → Bool

/-- The image-command branch, src/main.py lines 50-90.  Returns the effects,
the number of `reply_message` calls made, and the resulting control flow.
Mirrors the source: the success-path `reply_message` sits inside the `try`, so
its failure is caught and answered with the fallback text, whose own delivery
failure escapes; an empty prompt is a `return` from the whole handler; the
branch does NOT return on completion, it falls through to the keyword check. -/
def imageBranch (env : Env) (ev : InboundEvent) (userMsg : List Char) :
    Effects × Nat × Flow :=
  if imgCmd.isPrefixOf userMsg then
    let prompt := strip (replaceFirst imgCmd userMsg)
    if prompt = [] then (emptyEffects, 0, Flow.stop)
    else
      match env.imageApi prompt with
      | ImageResult.ok data =>
        if env.writeOk then
          let filename := env.freshName ++ pngExt
          let url := ev.hostUrl ++ staticSeg ++ filename
          let effOk : Effects :=
            ⟨[prompt], [], [(filename, data)], [Reply.image url url],
             [LogEntry.generatedUrl url]⟩
          if env.deliverOk 0 then (effOk, 1, Flow.next)
          else
            let effFb := Effects.merge effOk
              ⟨[], [], [], [Reply.text imgFailMsg], [LogEntry.imageError]⟩
            if env.deliverOk 1 then (effFb, 2, Flow.next) else (effFb, 2, Flow.exc)
        else
          let effErr : Effects :=
            ⟨[prompt], [], [], [Reply.text imgFailMsg], [LogEntry.imageError]⟩
          if env.deliverOk 0 then (effErr, 1, Flow.next) else (effErr, 1, Flow.exc)
      | ImageResult.noPayload =>
        let effErr : Effects :=
          ⟨[prompt], [], [], [Reply.text imgFailMsg], [LogEntry.imageError]⟩
        if env.deliverOk 0 then (effErr, 1, Flow.next) else (effErr, 1, Flow.exc)
      | ImageResult.raises =>
        let effErr : Effects :=
          ⟨[prompt], [], [], [Reply.text imgFailMsg], [LogEntry.imageError]⟩
        if env.deliverOk 0 then (effErr, 1, Flow.next) else (effErr, 1, Flow.exc)
  else (emptyEffects, 0, Flow.next)

/-- The assistant-keyword branch, src/main.py lines 94-118.  `cnt` is the number
of `reply_message` calls already made in this run.  As in the source, the
success-path `reply_message` is inside the `try`; the fallback `reply_message`
in the `except` block is not protected, so its failure escapes the handler. -/
def keywordBranch (env : Env) (userMsg : List Char) (cnt : Nat) :
    Effects × Flow :=
  if containsSub trigger_word userMsg then
    let prompt := strip (replaceAll trigger_word userMsg)
    if prompt = [] then (emptyEffects, Flow.stop)
    else
      match env.textApi prompt with
      | TextResult.ok t =>
        let effOk : Effects := ⟨[], [prompt], [], [Reply.text t], []⟩
        if env.deliverOk cnt then (effOk, Flow.next)
        else
          let effFb := Effects.merge effOk
            ⟨[], [], [], [Reply.text brainFailMsg], [LogEntry.textError]⟩
          if env.deliverOk (cnt + 1) then (effFb, Flow.next) else (effFb, Flow.exc)
      | TextResult.raises =>
        let effErr : Effects :=
          ⟨[], [prompt], [], [Reply.text brainFailMsg], [LogEntry.textError]⟩
        if env.deliverOk cnt then (effErr, Flow.next) else (effErr, Flow.exc)
  else (emptyEffects, Flow.next)

/-- The message handler, src/main.py lines 45-118.  Strips the raw text (line
47), runs the image-command branch, and — unless that branch `return`ed or
raised — falls through to the assistant-keyword branch.  The second component
records whether an exception escaped the handler. -/
def handle_message (env : Env) (ev : InboundEvent) : Effects × Bool :=
  let userMsg := strip ev.text
  match imageBranch env ev userMsg with
  | (eff1, _, Flow.stop) => (eff1, false)
  | (eff1, _, Flow.exc) => (eff1, true)
  | (eff1, cnt1, Flow.next) =>
    match keywordBranch env userMsg cnt1 with
    | (eff2, Flow.stop) => (Effects.merge eff1 eff2, false)
    | (eff2, Flow.exc) => (Effects.merge eff1 eff2, true)
    | (eff2, Flow.next) => (Effects.merge eff1 eff2, false)

/-- The image-command branch acts on stripped text `u` (prefix present,
non-empty prompt after stripping). -/
def imageActs (u : List Char) : Bool :=
  imgCmd.isPrefixOf u && !(strip (replaceFirst imgCmd u)).isEmpty

/-- The assistant-keyword branch acts on stripped text `u` (keyword present,
non-empty prompt after removal and stripping). -/
def keywordActs (u : List Char) : Bool :=
  containsSub trigger_word u && !(strip (replaceAll trigger_word u)).isEmpty

/-- An environment in which every external call succeeds. -/
def okEnv : Env :=
  ⟨fun _ => ImageResult.ok [7, 7], fun _ => TextResult.ok ("好".data),
   "f0".data, true, fun _ => true⟩

/-- An environment in which generation succeeds but the first
`reply_message` call of the run fails; later ones succeed. -/
def envDeliverFail0 : Env :=
  ⟨fun _ => ImageResult.ok [9], fun _ => TextResult.ok ("好".data),
   "f0".data, true, fun n => !(n == 0)⟩

/-- An environment in which both generation APIs raise. -/
def envFail : Env :=
  ⟨fun _ => ImageResult.raises, fun _ => TextResult.raises,
   "f0".data, true, fun _ => true⟩

/-- An environment in which the image API returns a response without an
image payload. -/
def envNoPayload : Env :=
  ⟨fun _ => ImageResult.noPayload, fun _ => TextResult.raises,
   "f0".data, true, fun _ => true⟩

/-- Build an inbound event with the given message text. -/
def mkEv (t : List Char) : InboundEvent := ⟨"tok".data, t, "https://h/".data⟩

/- ------------------------------------------------------------------ -/
/- Lemmas about the string-operation models                            -/
/- ------------------------------------------------------------------ -/

theorem replaceAllGo_skip (pat : List Char) :
    ∀ (s : List Char) (k : Nat), replaceAllGo pat k s = replaceAllGo pat 0 (s.drop k) := by
  intro s
  induction s with
  | nil => intro k; cases k <;> rfl
  | cons c rest ih =>
    intro k
    cases k with
    | zero => rfl
    | succ k => simpa [replaceAllGo] using ih k

/-- The natural recursion equation of `replaceAll`: on a match, the matched
characters are deleted and scanning resumes after them. -/
theorem replaceAll_cons (pat : List Char) (c : Char) (rest : List Char) :
    replaceAll pat (c :: rest) =
      if pat.isPrefixOf (c :: rest) then replaceAll pat (rest.drop (pat.length - 1))
      else c :: replaceAll pat rest := by
  by_cases h : pat.isPrefixOf (c :: rest) = true
  · simp [replaceAll, replaceAllGo, h, replaceAllGo_skip]
  · simp [replaceAll, replaceAllGo, h]

theorem isPrefixOf_append_self (p t : List Char) : p.isPrefixOf (p ++ t) = true := by
  induction p with
  | nil => simp [List.isPrefixOf]
  | cons c ps ih => simp [List.isPrefixOf, ih]

theorem eq_append_of_isPrefixOf {p s : List Char} (h : p.isPrefixOf s = true) :
    ∃ t, s = p ++ t := by
  induction p generalizing s with
  | nil => exact ⟨s, rfl⟩
  | cons c ps ih =>
    cases s with
    | nil => simp [List.isPrefixOf] at h
    | cons b bs =>
      simp only [List.isPrefixOf, Bool.and_eq_true, beq_iff_eq] at h
      obtain ⟨rfl, h2⟩ := h
      obtain ⟨t, rfl⟩ := ih h2
      exact ⟨t, rfl⟩

theorem replaceFirst_cons_append (c : Char) (ps t : List Char) :
    replaceFirst (c :: ps) ((c :: ps) ++ t) = t := by
  have hpre : (c :: ps).isPrefixOf (c :: (ps ++ t)) = true := by
    simp [isPrefixOf_append_self (c :: ps) t]
  simp only [List.cons_append, replaceFirst, List.append_eq, List.length_cons,
    Nat.add_sub_cancel]
  rw [if_pos hpre]
  exact List.drop_left ps t

theorem containsSub_iff_exists {pat s : List Char} :
    containsSub pat s = true ↔ ∃ x y, s = x ++ pat ++ y := by
  induction s with
  | nil =>
    simp only [containsSub, List.isEmpty_iff]
    constructor
    · rintro rfl; exact ⟨[], [], rfl⟩
    · rintro ⟨x, y, hxy⟩
      rcases List.append_eq_nil.mp (List.append_eq_nil.mp hxy.symm).1 with ⟨_, h⟩
      exact h
  | cons c rest ih =>
    simp only [containsSub, Bool.or_eq_true, ih]
    constructor
    · rintro (hpre | ⟨x, y, rfl⟩)
      · obtain ⟨t, ht⟩ := eq_append_of_isPrefixOf hpre
        exact ⟨[], t, by simpa using ht⟩
      · exact ⟨c :: x, y, rfl⟩
    · rintro ⟨x, y, hxy⟩
      cases x with
      | nil =>
        left
        simp only [List.nil_append] at hxy
        rw [hxy]
        exact isPrefixOf_append_self _ _
      | cons a xs =>
        right
        simp only [List.cons_append] at hxy
        injection hxy with _ h2
        exact ⟨xs, y, h2⟩

theorem head_mem_of_containsSub {c : Char} {ps s : List Char}
    (h : containsSub (c :: ps) s = true) : c ∈ s := by
  obtain ⟨x, y, rfl⟩ := containsSub_iff_exists.mp h
  simp

theorem containsSub_dropWhile {c : Char} {ps s : List Char} (hc : isWS c = false)
    (h : containsSub (c :: ps) s = true) :
    containsSub (c :: ps) (s.dropWhile isWS) = true := by
  induction s with
  | nil => simp [containsSub] at h
  | cons b rest ih =>
    by_cases hb : isWS b = true
    · rw [List.dropWhile_cons_of_pos hb]
      apply ih
      simp only [containsSub, Bool.or_eq_true] at h
      rcases h with hpre | hrest
      · exfalso
        simp only [List.isPrefixOf, Bool.and_eq_true, beq_iff_eq] at hpre
        rw [hpre.1] at hc
        rw [hc] at hb
        exact Bool.false_ne_true hb
      · exact hrest
    · rw [List.dropWhile_cons_of_neg hb]
      exact h

theorem containsSub_reverse {pat s : List Char} (h : containsSub pat s = true) :
    containsSub pat.reverse s.reverse = true := by
  obtain ⟨x, y, rfl⟩ := containsSub_iff_exists.mp h
  refine containsSub_iff_exists.mpr ⟨y.reverse, x.reverse, ?_⟩
  simp [List.reverse_append, List.append_assoc]

/-- A substring whose first and last characters are non-whitespace survives
stripping. -/
theorem containsSub_strip {s : List Char} {c c2 : Char} {ps ps2 : List Char}
    (hc : isWS c = false)
    (hrev : (c :: ps).reverse = c2 :: ps2) (hc2 : isWS c2 = false)
    (h : containsSub (c :: ps) s = true) :
    containsSub (c :: ps) (strip s) = true := by
  have h1 : containsSub (c :: ps) (s.dropWhile isWS) = true := containsSub_dropWhile hc h
  have h2 := containsSub_reverse h1
  rw [hrev] at h2
  have h3 := containsSub_dropWhile hc2 h2
  have h4 := containsSub_reverse h3
  rw [← hrev, List.reverse_reverse] at h4
  simpa [strip] using h4

theorem forall_ws_of_strip_eq_nil {s : List Char} (h : strip s = []) :
    ∀ c ∈ s, isWS c = true := by
  unfold strip at h
  rw [List.reverse_eq_nil_iff, List.dropWhile_eq_nil_iff] at h
  intro c hc
  rw [← List.takeWhile_append_dropWhile isWS s] at hc
  rcases List.mem_append.mp hc with h1 | h1
  · exact List.mem_takeWhile_imp h1
  · exact h (c) (List.mem_reverse.mpr h1)

/-- When the image command matches but its prompt is empty, the keyword trigger
cannot also match: the text is `/畫圖` followed by whitespace only, and 助手
occurs in none of those characters. -/
theorem keyword_not_in_wsTail {u : List Char}
    (hpre : imgCmd.isPrefixOf u = true)
    (hp : strip (replaceFirst imgCmd u) = []) :
    containsSub trigger_word u = false := by
  obtain ⟨t, rfl⟩ := eq_append_of_isPrefixOf hpre
  have himg : imgCmd = '/' :: ('畫' :: '圖' :: []) := by decide
  have hrf : replaceFirst imgCmd (imgCmd ++ t) = t := by
    rw [himg]; exact replaceFirst_cons_append _ _ _
  rw [hrf] at hp
  have hws := forall_ws_of_strip_eq_nil hp
  by_contra hcon
  have hc : containsSub trigger_word (imgCmd ++ t) = true := by
    cases h : containsSub trigger_word (imgCmd ++ t)
    · exact absurd h hcon
    · rfl
  have htw : trigger_word = '助' :: ('手' :: []) := by decide
  rw [htw] at hc
  have hmem : '助' ∈ imgCmd ++ t := head_mem_of_containsSub hc
  rcases List.mem_append.mp hmem with h1 | h1
  · rw [himg] at h1
    simp at h1
  · have := hws '助' h1
    simp [isWS] at this

/- ------------------------------------------------------------------ -/
/- Branch-level characterizations of the router                        -/
/- ------------------------------------------------------------------ -/

theorem imageBranch_not_triggered (env : Env) (ev : InboundEvent) (u : List Char)
    (h : imgCmd.isPrefixOf u = false) :
    imageBranch env ev u = (emptyEffects, 0, Flow.next) := by
  simp [imageBranch, h]

theorem imageBranch_emptyPrompt (env : Env) (ev : InboundEvent) (u : List Char)
    (hpre : imgCmd.isPrefixOf u = true)
    (hp : strip (replaceFirst imgCmd u) = []) :
    imageBranch env ev u = (emptyEffects, 0, Flow.stop) := by
  simp [imageBranch, hpre, hp]

theorem imageBranch_ok (env : Env) (ev : InboundEvent) (u : List Char) (d : List Nat)
    (hpre : imgCmd.isPrefixOf u = true)
    (hp : strip (replaceFirst imgCmd u) ≠ [])
    (himg : env.imageApi (strip (replaceFirst imgCmd u)) = ImageResult.ok d)
    (hw : env.writeOk = true)
    (hd0 : env.deliverOk 0 = true) :
    imageBranch env ev u =
      (⟨[strip (replaceFirst imgCmd u)], [],
        [(env.freshName ++ pngExt, d)],
        [Reply.image (ev.hostUrl ++ staticSeg ++ (env.freshName ++ pngExt))
                     (ev.hostUrl ++ staticSeg ++ (env.freshName ++ pngExt))],
        [LogEntry.generatedUrl (ev.hostUrl ++ staticSeg ++ (env.freshName ++ pngExt))]⟩,
       1, Flow.next) := by
  simp [imageBranch, hpre, hp, himg, hw, hd0]

theorem imageBranch_fail (env : Env) (ev : InboundEvent) (u : List Char)
    (hpre : imgCmd.isPrefixOf u = true)
    (hp : strip (replaceFirst imgCmd u) ≠ [])
    (hfail : env.imageApi (strip (replaceFirst imgCmd u)) = ImageResult.noPayload ∨
             env.imageApi (strip (replaceFirst imgCmd u)) = ImageResult.raises ∨
             (∃ d, env.imageApi (strip (replaceFirst imgCmd u)) = ImageResult.ok d ∧
                   env.writeOk = false))
    (hd0 : env.deliverOk 0 = true) :
    imageBranch env ev u =
      (⟨[strip (replaceFirst imgCmd u)], [], [],
        [Reply.text imgFailMsg], [LogEntry.imageError]⟩, 1, Flow.next) := by
  rcases hfail with h | h | ⟨d, h, hw⟩
  · simp [imageBranch, hpre, hp, h, hd0]
  · simp [imageBranch, hpre, hp, h, hd0]
  · simp [imageBranch, hpre, hp, h, hw, hd0]

theorem imageBranch_deliveryFail (env : Env) (ev : InboundEvent) (u : List Char)
    (d : List Nat)
    (hpre : imgCmd.isPrefixOf u = true)
    (hp : strip (replaceFirst imgCmd u) ≠ [])
    (himg : env.imageApi (strip (replaceFirst imgCmd u)) = ImageResult.ok d)
    (hw : env.writeOk = true)
    (hd0 : env.deliverOk 0 = false) :
    imageBranch env ev u =
      (⟨[strip (replaceFirst imgCmd u)], [],
        [(env.freshName ++ pngExt, d)],
        [Reply.image (ev.hostUrl ++ staticSeg ++ (env.freshName ++ pngExt))
                     (ev.hostUrl ++ staticSeg ++ (env.freshName ++ pngExt)),
         Reply.text imgFailMsg],
        [LogEntry.generatedUrl (ev.hostUrl ++ staticSeg ++ (env.freshName ++ pngExt)),
         LogEntry.imageError]⟩,
       2, if env.deliverOk 1 then Flow.next else Flow.exc) := by
  by_cases hd1 : env.deliverOk 1 = true
  · simp [imageBranch, hpre, hp, himg, hw, hd0, hd1, Effects.merge]
  · simp only [Bool.not_eq_true] at hd1
    simp [imageBranch, hpre, hp, himg, hw, hd0, hd1, Effects.merge]

theorem imageBranch_failDeliveryFail (env : Env) (ev : InboundEvent) (u : List Char)
    (hpre : imgCmd.isPrefixOf u = true)
    (hp : strip (replaceFirst imgCmd u) ≠ [])
    (hfail : env.imageApi (strip (replaceFirst imgCmd u)) = ImageResult.noPayload ∨
             env.imageApi (strip (replaceFirst imgCmd u)) = ImageResult.raises ∨
             (∃ d, env.imageApi (strip (replaceFirst imgCmd u)) = ImageResult.ok d ∧
                   env.writeOk = false))
    (hd0 : env.deliverOk 0 = false) :
    imageBranch env ev u =
      (⟨[strip (replaceFirst imgCmd u)], [], [],
        [Reply.text imgFailMsg], [LogEntry.imageError]⟩, 1, Flow.exc) := by
  rcases hfail with h | h | ⟨d, h, hw⟩
  · simp [imageBranch, hpre, hp, h, hd0]
  · simp [imageBranch, hpre, hp, h, hd0]
  · simp [imageBranch, hpre, hp, h, hw, hd0]

theorem keywordBranch_not_triggered (env : Env) (u : List Char) (cnt : Nat)
    (h : containsSub trigger_word u = false) :
    keywordBranch env u cnt = (emptyEffects, Flow.next) := by
  simp [keywordBranch, h]

theorem keywordBranch_emptyPrompt (env : Env) (u : List Char) (cnt : Nat)
    (hc : containsSub trigger_word u = true)
    (hp : strip (replaceAll trigger_word u) = []) :
    keywordBranch env u cnt = (emptyEffects, Flow.stop) := by
  simp [keywordBranch, hc, hp]

theorem keywordBranch_ok (env : Env) (u : List Char) (cnt : Nat) (t : List Char)
    (hc : containsSub trigger_word u = true)
    (hp : strip (replaceAll trigger_word u) ≠ [])
    (htx : env.textApi (strip (replaceAll trigger_word u)) = TextResult.ok t)
    (hdc : env.deliverOk cnt = true) :
    keywordBranch env u cnt =
      (⟨[], [strip (replaceAll trigger_word u)], [], [Reply.text t], []⟩,
       Flow.next) := by
  simp [keywordBranch, hc, hp, htx, hdc]

theorem keywordBranch_raises (env : Env) (u : List Char) (cnt : Nat)
    (hc : containsSub trigger_word u = true)
    (hp : strip (replaceAll trigger_word u) ≠ [])
    (htx : env.textApi (strip (replaceAll trigger_word u)) = TextResult.raises)
    (hdc : env.deliverOk cnt = true) :
    keywordBranch env u cnt =
      (⟨[], [strip (replaceAll trigger_word u)], [],
        [Reply.text brainFailMsg], [LogEntry.textError]⟩, Flow.next) := by
  simp [keywordBranch, hc, hp, htx, hdc]

theorem keywordBranch_deliveryFail (env : Env) (u : List Char) (cnt : Nat) (t : List Char)
    (hc : containsSub trigger_word u = true)
    (hp : strip (replaceAll trigger_word u) ≠ [])
    (htx : env.textApi (strip (replaceAll trigger_word u)) = TextResult.ok t)
    (hdc : env.deliverOk cnt = false) :
    keywordBranch env u cnt =
      (⟨[], [strip (replaceAll trigger_word u)], [],
        [Reply.text t, Reply.text brainFailMsg], [LogEntry.textError]⟩,
       if env.deliverOk (cnt + 1) then Flow.next else Flow.exc) := by
  by_cases hd1 : env.deliverOk (cnt + 1) = true
  · simp [keywordBranch, hc, hp, htx, hdc, hd1, Effects.merge]
  · simp only [Bool.not_eq_true] at hd1
    simp [keywordBranch, hc, hp, htx, hdc, hd1, Effects.merge]

theorem keywordBranch_raisesDeliveryFail (env : Env) (u : List Char) (cnt : Nat)
    (hc : containsSub trigger_word u = true)
    (hp : strip (replaceAll trigger_word u) ≠ [])
    (htx : env.textApi (strip (replaceAll trigger_word u)) = TextResult.raises)
    (hdc : env.deliverOk cnt = false) :
    keywordBranch env u cnt =
      (⟨[], [strip (replaceAll trigger_word u)], [],
        [Reply.text brainFailMsg], [LogEntry.textError]⟩, Flow.exc) := by
  simp [keywordBranch, hc, hp, htx, hdc]

/-- The keyword branch performs no image-API call and no file write,
whatever the environment. -/
theorem keywordBranch_no_image_effects (env : Env) (u : List Char) (cnt : Nat) :
    (keywordBranch env u cnt).1.imageCalls = [] ∧
    (keywordBranch env u cnt).1.fileWrites = [] := by
  by_cases hc : containsSub trigger_word u = true
  · by_cases hp : strip (replaceAll trigger_word u) = []
    · rw [keywordBranch_emptyPrompt env u cnt hc hp]
      exact ⟨rfl, rfl⟩
    · cases htx : env.textApi (strip (replaceAll trigger_word u)) with
      | ok t =>
        cases hdc : env.deliverOk cnt with
        | true =>
          rw [keywordBranch_ok env u cnt t hc hp htx hdc]
          exact ⟨rfl, rfl⟩
        | false =>
          rw [keywordBranch_deliveryFail env u cnt t hc hp htx hdc]
          exact ⟨rfl, rfl⟩
      | raises =>
        cases hdc : env.deliverOk cnt with
        | true =>
          rw [keywordBranch_raises env u cnt hc hp htx hdc]
          exact ⟨rfl, rfl⟩
        | false =>
          rw [keywordBranch_raisesDeliveryFail env u cnt hc hp htx hdc]
          exact ⟨rfl, rfl⟩
  · simp only [Bool.not_eq_true] at hc
    rw [keywordBranch_not_triggered env u cnt hc]
    exact ⟨rfl, rfl⟩

/-- Under an acting keyword trigger and a successful delivery at index `cnt`,
the keyword branch makes exactly one reply and falls through. -/
theorem keywordBranch_acts (env : Env) (u : List Char) (cnt : Nat)
    (hdc : env.deliverOk cnt = true)
    (hc : containsSub trigger_word u = true)
    (hp : strip (replaceAll trigger_word u) ≠ []) :
    ∃ eff, keywordBranch env u cnt = (eff, Flow.next) ∧ eff.replies.length = 1 := by
  cases htx : env.textApi (strip (replaceAll trigger_word u)) with
  | ok t => exact ⟨_, keywordBranch_ok env u cnt t hc hp htx hdc, rfl⟩
  | raises => exact ⟨_, keywordBranch_raises env u cnt hc hp htx hdc, rfl⟩

/-- Under an acting image trigger and a successful first delivery, the image
branch makes exactly one reply-API call and falls through with counter 1. -/
theorem imageBranch_acts (env : Env) (ev : InboundEvent) (u : List Char)
    (hd0 : env.deliverOk 0 = true)
    (hpre : imgCmd.isPrefixOf u = true)
    (hp : strip (replaceFirst imgCmd u) ≠ []) :
    ∃ eff, imageBranch env ev u = (eff, 1, Flow.next) ∧ eff.replies.length = 1 := by
  cases himg : env.imageApi (strip (replaceFirst imgCmd u)) with
  | ok d =>
    cases hw : env.writeOk with
    | true => exact ⟨_, imageBranch_ok env ev u d hpre hp himg hw hd0, rfl⟩
    | false =>
      exact ⟨_, imageBranch_fail env ev u hpre hp (Or.inr (Or.inr ⟨d, himg, hw⟩)) hd0, rfl⟩
  | noPayload => exact ⟨_, imageBranch_fail env ev u hpre hp (Or.inl himg) hd0, rfl⟩
  | raises => exact ⟨_, imageBranch_fail env ev u hpre hp (Or.inr (Or.inl himg)) hd0, rfl⟩

/-- The image branch always records exactly its prompt as the one image-API
call when it acts, whatever the environment does. -/
theorem imageBranch_imageCalls (env : Env) (ev : InboundEvent) (u : List Char)
    (hpre : imgCmd.isPrefixOf u = true)
    (hp : strip (replaceFirst imgCmd u) ≠ []) :
    (imageBranch env ev u).1.imageCalls = [strip (replaceFirst imgCmd u)] := by
  cases himg : env.imageApi (strip (replaceFirst imgCmd u)) with
  | ok d =>
    cases hw : env.writeOk with
    | true =>
      cases hd0 : env.deliverOk 0 with
      | true => rw [imageBranch_ok env ev u d hpre hp himg hw hd0]
      | false => rw [imageBranch_deliveryFail env ev u d hpre hp himg hw hd0]
    | false =>
      cases hd0 : env.deliverOk 0 with
      | true => rw [imageBranch_fail env ev u hpre hp (Or.inr (Or.inr ⟨d, himg, hw⟩)) hd0]
      | false =>
        rw [imageBranch_failDeliveryFail env ev u hpre hp (Or.inr (Or.inr ⟨d, himg, hw⟩)) hd0]
  | noPayload =>
    cases hd0 : env.deliverOk 0 with
    | true => rw [imageBranch_fail env ev u hpre hp (Or.inl himg) hd0]
    | false => rw [imageBranch_failDeliveryFail env ev u hpre hp (Or.inl himg) hd0]
  | raises =>
    cases hd0 : env.deliverOk 0 with
    | true => rw [imageBranch_fail env ev u hpre hp (Or.inr (Or.inl himg)) hd0]
    | false => rw [imageBranch_failDeliveryFail env ev u hpre hp (Or.inr (Or.inl himg)) hd0]

/-- The overall image-API call list of a run is exactly that of the image
branch: the keyword branch contributes none. -/
theorem handle_message_imageCalls (env : Env) (ev : InboundEvent) :
    (handle_message env ev).1.imageCalls =
      (imageBranch env ev (strip ev.text)).1.imageCalls := by
  simp only [handle_message]
  rcases h1 : imageBranch env ev (strip ev.text) with ⟨eff1, cnt1, fl1⟩
  cases fl1 with
  | next =>
    rcases h2 : keywordBranch env (strip ev.text) cnt1 with ⟨eff2, fl2⟩
    have hk := (keywordBranch_no_image_effects env (strip ev.text) cnt1).1
    rw [h2] at hk
    simp only at hk
    cases fl2 <;> simp [h2, Effects.merge, hk]
  | stop => rfl
  | exc => rfl

theorem isEmpty_false_of_ne_nil {l : List Char} (h : l ≠ []) : l.isEmpty = false := by
  cases l with
  | nil => exact absurd rfl h
  | cons a l => rfl

/-- Assembling `handle_message` from the image branch when it returns early. -/
theorem handle_message_of_stop (env : Env) (ev : InboundEvent) (eff1 : Effects) (cnt1 : Nat)
    (h1 : imageBranch env ev (strip ev.text) = (eff1, cnt1, Flow.stop)) :
    handle_message env ev = (eff1, false) := by
  simp only [handle_message, h1]

/-- Assembling `handle_message` when the image branch raises out of the handler. -/
theorem handle_message_of_imageExc (env : Env) (ev : InboundEvent) (eff1 : Effects) (cnt1 : Nat)
    (h1 : imageBranch env ev (strip ev.text) = (eff1, cnt1, Flow.exc)) :
    handle_message env ev = (eff1, true) := by
  simp only [handle_message, h1]

/-- Assembling `handle_message` when both branches fall through. -/
theorem handle_message_of_next (env : Env) (ev : InboundEvent) (eff1 : Effects) (cnt1 : Nat)
    (eff2 : Effects)
    (h1 : imageBranch env ev (strip ev.text) = (eff1, cnt1, Flow.next))
    (h2 : keywordBranch env (strip ev.text) cnt1 = (eff2, Flow.next)) :
    handle_message env ev = (Effects.merge eff1 eff2, false) := by
  simp only [handle_message, h1, h2]

/-- Assembling `handle_message` when the keyword branch returns early. -/
theorem handle_message_of_next_stop (env : Env) (ev : InboundEvent) (eff1 : Effects)
    (cnt1 : Nat) (eff2 : Effects)
    (h1 : imageBranch env ev (strip ev.text) = (eff1, cnt1, Flow.next))
    (h2 : keywordBranch env (strip ev.text) cnt1 = (eff2, Flow.stop)) :
    handle_message env ev = (Effects.merge eff1 eff2, false) := by
  simp only [handle_message, h1, h2]

/-- Assembling `handle_message` when the keyword branch raises out of the handler. -/
theorem handle_message_of_next_exc (env : Env) (ev : InboundEvent) (eff1 : Effects)
    (cnt1 : Nat) (eff2 : Effects)
    (h1 : imageBranch env ev (strip ev.text) = (eff1, cnt1, Flow.next))
    (h2 : keywordBranch env (strip ev.text) cnt1 = (eff2, Flow.exc)) :
    handle_message env ev = (Effects.merge eff1 eff2, true) := by
  simp only [handle_message, h1, h2]

/-- Whenever the keyword trigger acts, the prompt recorded against the text API
is the text with every occurrence of 助手 removed and trimmed, in every
environment. -/
theorem keywordBranch_textCalls (env : Env) (u : List Char) (cnt : Nat)
    (hc : containsSub trigger_word u = true)
    (hp : strip (replaceAll trigger_word u) ≠ []) :
    (keywordBranch env u cnt).1.textCalls = [strip (replaceAll trigger_word u)] := by
  cases htx : env.textApi (strip (replaceAll trigger_word u)) with
  | ok t =>
    cases hdc : env.deliverOk cnt with
    | true => rw [keywordBranch_ok env u cnt t hc hp htx hdc]
    | false => rw [keywordBranch_deliveryFail env u cnt t hc hp htx hdc]
  | raises =>
    cases hdc : env.deliverOk cnt with
    | true => rw [keywordBranch_raises env u cnt hc hp htx hdc]
    | false => rw [keywordBranch_raisesDeliveryFail env u cnt hc hp htx hdc]

/-- With a successful delivery at its counter, the keyword branch never raises
out of the handler. -/
theorem keywordBranch_flow_ok (env : Env) (u : List Char) (cnt : Nat)
    (hdc : env.deliverOk cnt = true) :
    (keywordBranch env u cnt).2 ≠ Flow.exc := by
  by_cases hc : containsSub trigger_word u = true
  · by_cases hp : strip (replaceAll trigger_word u) = []
    · rw [keywordBranch_emptyPrompt env u cnt hc hp]
      simp
    · cases htx : env.textApi (strip (replaceAll trigger_word u)) with
      | ok t =>
        rw [keywordBranch_ok env u cnt t hc hp htx hdc]
        simp
      | raises =>
        rw [keywordBranch_raises env u cnt hc hp htx hdc]
        simp
  · simp only [Bool.not_eq_true] at hc
    rw [keywordBranch_not_triggered env u cnt hc]
    simp

theorem imageBranch_deliveryFailNext (env : Env) (ev : InboundEvent) (u : List Char)
    (d : List Nat)
    (hpre : imgCmd.isPrefixOf u = true)
    (hp : strip (replaceFirst imgCmd u) ≠ [])
    (himg : env.imageApi (strip (replaceFirst imgCmd u)) = ImageResult.ok d)
    (hw : env.writeOk = true)
    (hd0 : env.deliverOk 0 = false)
    (hd1 : env.deliverOk 1 = true) :
    imageBranch env ev u =
      (⟨[strip (replaceFirst imgCmd u)], [],
        [(env.freshName ++ pngExt, d)],
        [Reply.image (ev.hostUrl ++ staticSeg ++ (env.freshName ++ pngExt))
                     (ev.hostUrl ++ staticSeg ++ (env.freshName ++ pngExt)),
         Reply.text imgFailMsg],
        [LogEntry.generatedUrl (ev.hostUrl ++ staticSeg ++ (env.freshName ++ pngExt)),
         LogEntry.imageError]⟩,
       2, Flow.next) := by
  simp [imageBranch, hpre, hp, himg, hw, hd0, hd1, Effects.merge]

theorem imageBranch_deliveryFailExc (env : Env) (ev : InboundEvent) (u : List Char)
    (d : List Nat)
    (hpre : imgCmd.isPrefixOf u = true)
    (hp : strip (replaceFirst imgCmd u) ≠ [])
    (himg : env.imageApi (strip (replaceFirst imgCmd u)) = ImageResult.ok d)
    (hw : env.writeOk = true)
    (hd0 : env.deliverOk 0 = false)
    (hd1 : env.deliverOk 1 = false) :
    imageBranch env ev u =
      (⟨[strip (replaceFirst imgCmd u)], [],
        [(env.freshName ++ pngExt, d)],
        [Reply.image (ev.hostUrl ++ staticSeg ++ (env.freshName ++ pngExt))
                     (ev.hostUrl ++ staticSeg ++ (env.freshName ++ pngExt)),
         Reply.text imgFailMsg],
        [LogEntry.generatedUrl (ev.hostUrl ++ staticSeg ++ (env.freshName ++ pngExt)),
         LogEntry.imageError]⟩,
       2, Flow.exc) := by
  simp [imageBranch, hpre, hp, himg, hw, hd0, hd1, Effects.merge]

/- ------------------------------------------------------------------ -/
/- Claim theorems                                                      -/
/- ------------------------------------------------------------------ -/

/-- Claim C3 counterexample: the raw text ` /畫圖 x` starts with whitespace, so
it neither starts with `/畫圖` nor contains `助手` in raw form, yet the handler
strips the text first (src/main.py line 47), invokes the image API with prompt
`x` and produces a reply. -/
theorem c3_raw_leading_whitespace_cex :
    imgCmd.isPrefixOf (" /畫圖 x".data) = false ∧
    containsSub trigger_word (" /畫圖 x".data) = false ∧
    (handle_message okEnv (mkEv (" /畫圖 x".data))).1.imageCalls = [['x']] ∧
    (handle_message okEnv (mkEv (" /畫圖 x".data))).1.replies.length = 1 := by
  decide

/-- Claim C3 (amended): for every message whose STRIPPED text neither contains
`助手` nor starts with `/畫圖`, the router performs no effect at all — no
reply, no generation-API call, no file write, no log — and raises nothing.
(The claim's parenthetical is wrong: a raw text of whitespace followed by
`/畫圖` is stripped first and does trigger the image branch.) -/
theorem c3_no_trigger_no_effect (env : Env) (ev : InboundEvent)
    (hpre : imgCmd.isPrefixOf (strip ev.text) = false)
    (hc : containsSub trigger_word (strip ev.text) = false) :
    handle_message env ev = (emptyEffects, false) := by
  have h1 := imageBranch_not_triggered env ev (strip ev.text) hpre
  have h2 := keywordBranch_not_triggered env (strip ev.text) 0 hc
  rw [handle_message_of_next env ev emptyEffects 0 emptyEffects h1 h2]
  simp [Effects.merge, emptyEffects]

/-- Claim C3 witness at the unmatched text `hello`. -/
theorem c3_no_trigger_no_effect_witness :
    handle_message okEnv (mkEv ("hello".data)) = (emptyEffects, false) :=
  c3_no_trigger_no_effect okEnv (mkEv ("hello".data)) (by decide) (by decide)

/-- Claim C4: when the matching trigger's prompt is empty after removal and
trimming — the stripped text is `/畫圖` plus trailing whitespace, or consists
of `助手` occurrences and whitespace only — the router performs no effect and
calls no generation API (silent no-op, modelling the early `return`s at
src/main.py lines 52-53 and 100-101). -/
theorem c4_empty_prompt_silent (env : Env) (ev : InboundEvent)
    (h : (imgCmd.isPrefixOf (strip ev.text) = true ∧
          strip (replaceFirst imgCmd (strip ev.text)) = []) ∨
         (imgCmd.isPrefixOf (strip ev.text) = false ∧
          containsSub trigger_word (strip ev.text) = true ∧
          strip (replaceAll trigger_word (strip ev.text)) = [])) :
    handle_message env ev = (emptyEffects, false) := by
  rcases h with ⟨hpre, hp⟩ | ⟨hpre, hc, hp⟩
  · exact handle_message_of_stop env ev emptyEffects 0
      (imageBranch_emptyPrompt env ev (strip ev.text) hpre hp)
  · have h1 := imageBranch_not_triggered env ev (strip ev.text) hpre
    have h2 := keywordBranch_emptyPrompt env (strip ev.text) 0 hc hp
    rw [handle_message_of_next_stop env ev emptyEffects 0 emptyEffects h1 h2]
    simp [Effects.merge, emptyEffects]

/-- Claim C4 witness at the text `/畫圖` followed by whitespace only. -/
theorem c4_empty_prompt_silent_witness :
    handle_message okEnv (mkEv ("/畫圖   ".data)) = (emptyEffects, false) :=
  c4_empty_prompt_silent okEnv (mkEv ("/畫圖   ".data)) (Or.inl (by decide))

/-- Claim C5: for input `助手 畫一隻貓的故事` the text API is invoked exactly
once, with prompt `畫一隻貓的故事`, and on success (with the reply delivery
succeeding) the single outbound reply is `Text` of the API's response text. -/
theorem c5_assistant_story (env : Env) (ev : InboundEvent) (t : List Char)
    (htext : ev.text = "助手 畫一隻貓的故事".data)
    (hapi : env.textApi ("畫一隻貓的故事".data) = TextResult.ok t)
    (hd : ∀ n, env.deliverOk n = true) :
    (handle_message env ev).1.textCalls = [("畫一隻貓的故事".data)] ∧
    (handle_message env ev).1.replies = [Reply.text t] := by
  have hstrip : strip ev.text = "助手 畫一隻貓的故事".data := by
    rw [htext]; decide
  have hpre : imgCmd.isPrefixOf (strip ev.text) = false := by
    rw [hstrip]; decide
  have hc : containsSub trigger_word (strip ev.text) = true := by
    rw [hstrip]; decide
  have hpr : strip (replaceAll trigger_word (strip ev.text)) = "畫一隻貓的故事".data := by
    rw [hstrip]; decide
  have hp : strip (replaceAll trigger_word (strip ev.text)) ≠ [] := by
    rw [hpr]; decide
  have h1 := imageBranch_not_triggered env ev (strip ev.text) hpre
  have h2 := keywordBranch_ok env (strip ev.text) 0 t hc hp (by rw [hpr]; exact hapi) (hd 0)
  rw [handle_message_of_next env ev emptyEffects 0 _ h1 h2]
  simp [Effects.merge, emptyEffects, hpr]

/-- Claim C5 witness at the concrete successful environment. -/
theorem c5_assistant_story_witness :
    (handle_message okEnv (mkEv ("助手 畫一隻貓的故事".data))).1.textCalls =
      [("畫一隻貓的故事".data)] ∧
    (handle_message okEnv (mkEv ("助手 畫一隻貓的故事".data))).1.replies =
      [Reply.text ("好".data)] :=
  c5_assistant_story okEnv (mkEv ("助手 畫一隻貓的故事".data)) ("好".data)
    rfl rfl (fun _ => rfl)

/-- Claim C2 counterexample: for the text `助手a助手` the prompt actually sent
to the text API is `a` — the source's `replace(trigger_word, "")` at
src/main.py line 98 removes ALL occurrences — whereas removing only the first
occurrence and trimming, as the claim states, would give `a助手`. -/
theorem c2_first_occurrence_cex :
    (handle_message okEnv (mkEv ("助手a助手".data))).1.textCalls = [['a']] ∧
    strip (replaceFirst trigger_word ("助手a助手".data)) = 'a' :: trigger_word ∧
    (['a'] : List Char) ≠ 'a' :: trigger_word := by
  decide

/-- Claim C2 (amended): in the assistant-keyword branch the prompt sent to the
text API equals the stripped message text with EVERY (leftmost-first,
non-overlapping) occurrence of `助手` removed and the result trimmed; later
occurrences do not remain. -/
theorem c2_prompt_removes_all_occurrences (env : Env) (ev : InboundEvent)
    (hpre : imgCmd.isPrefixOf (strip ev.text) = false)
    (hc : containsSub trigger_word (strip ev.text) = true)
    (hp : strip (replaceAll trigger_word (strip ev.text)) ≠ []) :
    (handle_message env ev).1.textCalls =
      [strip (replaceAll trigger_word (strip ev.text))] := by
  have h1 := imageBranch_not_triggered env ev (strip ev.text) hpre
  have htc := keywordBranch_textCalls env (strip ev.text) 0 hc hp
  rcases h2 : keywordBranch env (strip ev.text) 0 with ⟨eff2, fl2⟩
  rw [h2] at htc
  simp only at htc
  cases fl2 with
  | next =>
    rw [handle_message_of_next env ev emptyEffects 0 eff2 h1 h2]
    simp [Effects.merge, emptyEffects, htc]
  | stop =>
    rw [handle_message_of_next_stop env ev emptyEffects 0 eff2 h1 h2]
    simp [Effects.merge, emptyEffects, htc]
  | exc =>
    rw [handle_message_of_next_exc env ev emptyEffects 0 eff2 h1 h2]
    simp [Effects.merge, emptyEffects, htc]

/-- Claim C2 witness at the text `助手a助手` (both occurrences removed). -/
theorem c2_prompt_removes_all_occurrences_witness :
    (handle_message okEnv (mkEv ("助手a助手".data))).1.textCalls =
      [strip (replaceAll trigger_word (strip (mkEv ("助手a助手".data)).text))] :=
  c2_prompt_removes_all_occurrences okEnv (mkEv ("助手a助手".data))
    (by decide) (by decide) (by decide)

/-- Claim C10: prefix stripping removes only the first occurrence of `/畫圖`
(the `replace(.., 1)` at src/main.py line 51): if the stripped text is
`/畫圖` followed by a remainder that itself contains `/畫圖`, the prompt sent
to the image API is exactly the trimmed remainder, and it still contains the
later `/畫圖` occurrence. -/
theorem c10_later_image_commands_kept (env : Env) (ev : InboundEvent) (rest : List Char)
    (hu : strip ev.text = imgCmd ++ rest)
    (hcr : containsSub imgCmd rest = true) :
    (handle_message env ev).1.imageCalls = [strip rest] ∧
    containsSub imgCmd (strip rest) = true := by
  have himgc : imgCmd = '/' :: ('畫' :: '圖' :: []) := by decide
  have hstrong : containsSub imgCmd (strip rest) = true := by
    rw [himgc]
    rw [himgc] at hcr
    have hrev : ('/' :: ('畫' :: '圖' :: [])).reverse = '圖' :: ('畫' :: '/' :: []) := by
      decide
    exact containsSub_strip (by decide) hrev (by decide) hcr
  refine ⟨?_, hstrong⟩
  have hrf : replaceFirst imgCmd (imgCmd ++ rest) = rest := by
    rw [himgc]; exact replaceFirst_cons_append _ _ _
  have hpre : imgCmd.isPrefixOf (strip ev.text) = true := by
    rw [hu]; exact isPrefixOf_append_self _ _
  have hp : strip (replaceFirst imgCmd (strip ev.text)) ≠ [] := by
    rw [hu, hrf]
    intro hnil
    rw [hnil] at hstrong
    exact absurd hstrong (by decide)
  rw [handle_message_imageCalls env ev, imageBranch_imageCalls env ev (strip ev.text) hpre hp,
    hu, hrf]

/-- Claim C10 witness at the text `/畫圖 /畫圖 x`. -/
theorem c10_later_image_commands_kept_witness :
    (handle_message okEnv (mkEv ("/畫圖 /畫圖 x".data))).1.imageCalls =
      [strip (" /畫圖 x".data)] ∧
    containsSub imgCmd (strip (" /畫圖 x".data)) = true :=
  c10_later_image_commands_kept okEnv (mkEv ("/畫圖 /畫圖 x".data)) (" /畫圖 x".data)
    (by decide) (by decide)

/-- Claim C6: when the image command acts and the image API returns payload
bytes (file write and reply delivery succeeding), the router writes exactly
those bytes to the fresh `{uuid}.png` file and the image branch's reply is
`Image(url, url)` with `url = hostUrl ++ "static/" ++ filename` and preview
equal to the original. -/
theorem c6_image_success_file_and_reply (env : Env) (ev : InboundEvent) (d : List Nat)
    (hpre : imgCmd.isPrefixOf (strip ev.text) = true)
    (hp : strip (replaceFirst imgCmd (strip ev.text)) ≠ [])
    (himg : env.imageApi (strip (replaceFirst imgCmd (strip ev.text))) = ImageResult.ok d)
    (hw : env.writeOk = true)
    (hd : ∀ n, env.deliverOk n = true) :
    (handle_message env ev).1.fileWrites = [(env.freshName ++ pngExt, d)] ∧
    (handle_message env ev).1.replies.head? =
      some (Reply.image (ev.hostUrl ++ staticSeg ++ (env.freshName ++ pngExt))
                        (ev.hostUrl ++ staticSeg ++ (env.freshName ++ pngExt))) := by
  have h1 := imageBranch_ok env ev (strip ev.text) d hpre hp himg hw (hd 0)
  rcases h2 : keywordBranch env (strip ev.text) 1 with ⟨eff2, fl2⟩
  have hk := (keywordBranch_no_image_effects env (strip ev.text) 1).2
  rw [h2] at hk
  simp only at hk
  cases fl2 with
  | next =>
    rw [handle_message_of_next env ev _ 1 eff2 h1 h2]
    simp [Effects.merge, hk]
  | stop =>
    rw [handle_message_of_next_stop env ev _ 1 eff2 h1 h2]
    simp [Effects.merge, hk]
  | exc =>
    rw [handle_message_of_next_exc env ev _ 1 eff2 h1 h2]
    simp [Effects.merge, hk]

/-- Claim C6 witness at the text `/畫圖 一隻貓在太空` in the all-success
environment. -/
theorem c6_image_success_file_and_reply_witness :
    (handle_message okEnv (mkEv ("/畫圖 一隻貓在太空".data))).1.fileWrites =
      [(("f0".data) ++ pngExt, [7, 7])] ∧
    (handle_message okEnv (mkEv ("/畫圖 一隻貓在太空".data))).1.replies.head? =
      some (Reply.image (("https://h/".data) ++ staticSeg ++ (("f0".data) ++ pngExt))
                        (("https://h/".data) ++ staticSeg ++ (("f0".data) ++ pngExt))) :=
  c6_image_success_file_and_reply okEnv (mkEv ("/畫圖 一隻貓在太空".data)) [7, 7]
    (by decide) (by decide) rfl rfl (fun _ => rfl)

/-- Claim C7: when the image command acts and the image generation fails — no
payload in the response, the call raises, or the file write fails — the image
branch replies exactly `Text(畫圖失敗了... 原因可能是涉及敏感內容或模型太忙碌。)`,
logs the error, and (deliveries succeeding) no exception escapes the
handler. -/
theorem c7_image_failure_fallback (env : Env) (ev : InboundEvent)
    (hpre : imgCmd.isPrefixOf (strip ev.text) = true)
    (hp : strip (replaceFirst imgCmd (strip ev.text)) ≠ [])
    (hfail : env.imageApi (strip (replaceFirst imgCmd (strip ev.text))) =
               ImageResult.noPayload ∨
             env.imageApi (strip (replaceFirst imgCmd (strip ev.text))) =
               ImageResult.raises ∨
             (∃ d, env.imageApi (strip (replaceFirst imgCmd (strip ev.text))) =
                     ImageResult.ok d ∧ env.writeOk = false))
    (hd : ∀ n, env.deliverOk n = true) :
    (handle_message env ev).1.replies.head? = some (Reply.text imgFailMsg) ∧
    LogEntry.imageError ∈ (handle_message env ev).1.logs ∧
    (handle_message env ev).2 = false := by
  have h1 := imageBranch_fail env ev (strip ev.text) hpre hp hfail (hd 0)
  rcases h2 : keywordBranch env (strip ev.text) 1 with ⟨eff2, fl2⟩
  have hfl := keywordBranch_flow_ok env (strip ev.text) 1 (hd 1)
  rw [h2] at hfl
  simp only at hfl
  cases fl2 with
  | next =>
    rw [handle_message_of_next env ev _ 1 eff2 h1 h2]
    simp [Effects.merge]
  | stop =>
    rw [handle_message_of_next_stop env ev _ 1 eff2 h1 h2]
    simp [Effects.merge]
  | exc => exact absurd rfl hfl

/-- Claim C7 witness: the image API raises on `/畫圖 一隻貓在太空`. -/
theorem c7_image_failure_fallback_witness :
    (handle_message envFail (mkEv ("/畫圖 一隻貓在太空".data))).1.replies.head? =
      some (Reply.text imgFailMsg) ∧
    LogEntry.imageError ∈ (handle_message envFail (mkEv ("/畫圖 一隻貓在太空".data))).1.logs ∧
    (handle_message envFail (mkEv ("/畫圖 一隻貓在太空".data))).2 = false :=
  c7_image_failure_fallback envFail (mkEv ("/畫圖 一隻貓在太空".data))
    (by decide) (by decide) (Or.inr (Or.inl rfl)) (fun _ => rfl)

/-- Claim C8: when the assistant keyword acts (on a message without the image
command) and the text API raises, the keyword branch replies exactly
`Text(大腦暫時短路了，請稍後再試。)`, logs the error, and (deliveries
succeeding) no exception escapes the handler. -/
theorem c8_text_failure_fallback (env : Env) (ev : InboundEvent)
    (hpre : imgCmd.isPrefixOf (strip ev.text) = false)
    (hc : containsSub trigger_word (strip ev.text) = true)
    (hp : strip (replaceAll trigger_word (strip ev.text)) ≠ [])
    (htx : env.textApi (strip (replaceAll trigger_word (strip ev.text))) =
             TextResult.raises)
    (hd : ∀ n, env.deliverOk n = true) :
    (handle_message env ev).1.replies = [Reply.text brainFailMsg] ∧
    LogEntry.textError ∈ (handle_message env ev).1.logs ∧
    (handle_message env ev).2 = false := by
  have h1 := imageBranch_not_triggered env ev (strip ev.text) hpre
  have h2 := keywordBranch_raises env (strip ev.text) 0 hc hp htx (hd 0)
  rw [handle_message_of_next env ev emptyEffects 0 _ h1 h2]
  simp [Effects.merge, emptyEffects]

/-- Claim C8 witness: the text API raises on `助手 畫一隻貓的故事`. -/
theorem c8_text_failure_fallback_witness :
    (handle_message envFail (mkEv ("助手 畫一隻貓的故事".data))).1.replies =
      [Reply.text brainFailMsg] ∧
    LogEntry.textError ∈ (handle_message envFail (mkEv ("助手 畫一隻貓的故事".data))).1.logs ∧
    (handle_message envFail (mkEv ("助手 畫一隻貓的故事".data))).2 = false :=
  c8_text_failure_fallback envFail (mkEv ("助手 畫一隻貓的故事".data))
    (by decide) (by decide) (by decide) rfl (fun _ => rfl)

/-- Claim C9 counterexample: on `/畫圖 貓` generation succeeds but the delivery
of the image reply fails (reply call 0); the handler catches that failure,
attempts the fallback text reply, and no exception escapes — the failure is
converted into a fallback text reply rather than propagating unhandled, as the
claim states. -/
theorem c9_delivery_failure_cex :
    (handle_message envDeliverFail0 (mkEv ("/畫圖 貓".data))).1.replies =
      [Reply.image ("https://h/static/f0.png".data) ("https://h/static/f0.png".data),
       Reply.text imgFailMsg] ∧
    (handle_message envDeliverFail0 (mkEv ("/畫圖 貓".data))).2 = false := by
  decide

/-- Claim C9 (amended): a reply-delivery failure after a successful image
generation is caught by the branch's `try/except` and converted into a
fallback text reply attempt; only if that second delivery also fails does the
failure escape the handler. -/
theorem c9_delivery_failure_converted (env : Env) (ev : InboundEvent) (d : List Nat)
    (hpre : imgCmd.isPrefixOf (strip ev.text) = true)
    (hp : strip (replaceFirst imgCmd (strip ev.text)) ≠ [])
    (himg : env.imageApi (strip (replaceFirst imgCmd (strip ev.text))) = ImageResult.ok d)
    (hw : env.writeOk = true)
    (hd0 : env.deliverOk 0 = false)
    (hc : containsSub trigger_word (strip ev.text) = false) :
    (handle_message env ev).1.replies =
      [Reply.image (ev.hostUrl ++ staticSeg ++ (env.freshName ++ pngExt))
                   (ev.hostUrl ++ staticSeg ++ (env.freshName ++ pngExt)),
       Reply.text imgFailMsg] ∧
    (handle_message env ev).2 = !env.deliverOk 1 := by
  cases hd1 : env.deliverOk 1 with
  | true =>
    have h1 := imageBranch_deliveryFailNext env ev (strip ev.text) d hpre hp himg hw hd0 hd1
    have h2 := keywordBranch_not_triggered env (strip ev.text) 2 hc
    rw [handle_message_of_next env ev _ 2 emptyEffects h1 h2]
    simp [Effects.merge, emptyEffects, hd1]
  | false =>
    have h1 := imageBranch_deliveryFailExc env ev (strip ev.text) d hpre hp himg hw hd0 hd1
    rw [handle_message_of_imageExc env ev _ 2 h1]
    simp [hd1]

/-- Claim C9 witness: concrete run where the first delivery fails and the
fallback delivery succeeds. -/
theorem c9_delivery_failure_converted_witness :
    (handle_message envDeliverFail0 (mkEv ("/畫圖 一隻貓在太空".data))).1.replies =
      [Reply.image ((mkEv ("/畫圖 一隻貓在太空".data)).hostUrl ++ staticSeg ++
                      (envDeliverFail0.freshName ++ pngExt))
                   ((mkEv ("/畫圖 一隻貓在太空".data)).hostUrl ++ staticSeg ++
                      (envDeliverFail0.freshName ++ pngExt)),
       Reply.text imgFailMsg] ∧
    (handle_message envDeliverFail0 (mkEv ("/畫圖 一隻貓在太空".data))).2 =
      !envDeliverFail0.deliverOk 1 :=
  c9_delivery_failure_converted envDeliverFail0 (mkEv ("/畫圖 一隻貓在太空".data)) [9]
    (by decide) (by decide) rfl rfl rfl (by decide)

/-- Claim C1 counterexample: the text `/畫圖助手` starts with `/畫圖` AND
contains `助手`; the image branch does not return after replying (no `return`
at src/main.py line 90), so the run falls through to the keyword branch, both
branches act — an image-API call and a text-API call are both made — and TWO
replies are produced, not exactly one. -/
theorem c1_double_processing_cex :
    imgCmd.isPrefixOf (strip ("/畫圖助手".data)) = true ∧
    containsSub trigger_word (strip ("/畫圖助手".data)) = true ∧
    (handle_message okEnv (mkEv ("/畫圖助手".data))).1.replies.length = 2 ∧
    (handle_message okEnv (mkEv ("/畫圖助手".data))).1.imageCalls ≠ [] ∧
    (handle_message okEnv (mkEv ("/畫圖助手".data))).1.textCalls ≠ [] := by
  decide

/-- Claim C1 (amended): with reply deliveries succeeding, each acting trigger
branch produces exactly one reply and the total reply count equals the number
of acting branches — one for an event matching a single trigger with a
non-empty prompt, zero for an unmatched event or an empty prompt, but TWO for
a message that starts with `/畫圖` and also contains `助手` with both prompts
non-empty, since the branches are not mutually exclusive. -/
theorem c1_reply_count_eq_acting_branches (env : Env) (ev : InboundEvent)
    (hd : ∀ n, env.deliverOk n = true) :
    (handle_message env ev).1.replies.length =
      (if imageActs (strip ev.text) then 1 else 0) +
      (if keywordActs (strip ev.text) then 1 else 0) := by
  cases hpre : imgCmd.isPrefixOf (strip ev.text) with
  | false =>
    have h1 := imageBranch_not_triggered env ev (strip ev.text) hpre
    have hIA : imageActs (strip ev.text) = false := by
      simp [imageActs, hpre]
    cases hc : containsSub trigger_word (strip ev.text) with
    | false =>
      have h2 := keywordBranch_not_triggered env (strip ev.text) 0 hc
      have hKA : keywordActs (strip ev.text) = false := by
        simp [keywordActs, hc]
      rw [handle_message_of_next env ev emptyEffects 0 emptyEffects h1 h2]
      simp [Effects.merge, emptyEffects, hIA, hKA]
    | true =>
      by_cases hp : strip (replaceAll trigger_word (strip ev.text)) = []
      · have h2 := keywordBranch_emptyPrompt env (strip ev.text) 0 hc hp
        have hKA : keywordActs (strip ev.text) = false := by
          simp [keywordActs, hp]
        rw [handle_message_of_next_stop env ev emptyEffects 0 emptyEffects h1 h2]
        simp [Effects.merge, emptyEffects, hIA, hKA]
      · obtain ⟨eff2, h2, hlen2⟩ := keywordBranch_acts env (strip ev.text) 0 (hd 0) hc hp
        have hKA : keywordActs (strip ev.text) = true := by
          simp [keywordActs, hc, isEmpty_false_of_ne_nil hp]
        rw [handle_message_of_next env ev emptyEffects 0 eff2 h1 h2]
        simp [Effects.merge, emptyEffects, hIA, hKA, hlen2]
  | true =>
    by_cases hp : strip (replaceFirst imgCmd (strip ev.text)) = []
    · have h1 := imageBranch_emptyPrompt env ev (strip ev.text) hpre hp
      have hIA : imageActs (strip ev.text) = false := by
        simp [imageActs, hp]
      have hc := keyword_not_in_wsTail hpre hp
      have hKA : keywordActs (strip ev.text) = false := by
        simp [keywordActs, hc]
      rw [handle_message_of_stop env ev emptyEffects 0 h1]
      simp [emptyEffects, hIA, hKA]
    · obtain ⟨eff1, h1, hlen1⟩ := imageBranch_acts env ev (strip ev.text) (hd 0) hpre hp
      have hIA : imageActs (strip ev.text) = true := by
        simp [imageActs, hpre, isEmpty_false_of_ne_nil hp]
      cases hc : containsSub trigger_word (strip ev.text) with
      | false =>
        have h2 := keywordBranch_not_triggered env (strip ev.text) 1 hc
        have hKA : keywordActs (strip ev.text) = false := by
          simp [keywordActs, hc]
        rw [handle_message_of_next env ev eff1 1 emptyEffects h1 h2]
        simp [Effects.merge, emptyEffects, hIA, hKA, hlen1]
      | true =>
        by_cases hkp : strip (replaceAll trigger_word (strip ev.text)) = []
        · have h2 := keywordBranch_emptyPrompt env (strip ev.text) 1 hc hkp
          have hKA : keywordActs (strip ev.text) = false := by
            simp [keywordActs, hkp]
          rw [handle_message_of_next_stop env ev eff1 1 emptyEffects h1 h2]
          simp [Effects.merge, emptyEffects, hIA, hKA, hlen1]
        · obtain ⟨eff2, h2, hlen2⟩ :=
            keywordBranch_acts env (strip ev.text) 1 (hd 1) hc hkp
          have hKA : keywordActs (strip ev.text) = true := by
            simp [keywordActs, hc, isEmpty_false_of_ne_nil hkp]
          rw [handle_message_of_next env ev eff1 1 eff2 h1 h2]
          simp [Effects.merge, hIA, hKA, hlen1, hlen2]

/-- Claim C1 witness: a single-trigger message yields exactly one reply. -/
theorem c1_reply_count_witness :
    (handle_message okEnv (mkEv ("/畫圖 一隻貓在太空".data))).1.replies.length = 1 := by
  rw [c1_reply_count_eq_acting_branches okEnv (mkEv ("/畫圖 一隻貓在太空".data))
    (fun _ => rfl)]
  decide

end LineGemini
